import Mathlib

/-!
# A verification development for `client.cpp`

`client.cpp` is a small TCP client: it puts a socket in non-blocking mode,
connects with a 15 second bound (`serverConnect`), and streams a file to the
peer in packets of `PACKET_SIZE` bytes with a 10 second bound per packet
(`communicate`).

The program is embedded shallowly.  Everything the operating system decides
(the result of `connect`, `select`, `send`, `fcntl`, `getsockname`, whether the
file can be opened and what it contains) is an explicit argument, the
environment `Env`.  Every function of the program becomes a Lean function from
the environment to a `Run`: the sequence of system and library calls the
function performs, in program order, each with the arguments and the result
that matter, and the way the function ends (it returns, or the process is
ended by `exit(1)`).

Left out of the embedding: the text written to `stderr` by `printError`,
`printUsage` and `perror` (each place where the process is ended has its own
`Failure` instead), the bytes of `buf` beyond `gcount` (they are never handed to
`send`), and failures of the medium under the file stream (`badbit`).

The file has three parts: the embedding of the program, auxiliary facts about
the loop of `communicate`, and one theorem for each claim of the specification.
-/

set_option autoImplicit false

namespace Client

/-! ## Data model -/

/-- One `char` of the file. -/
abbrev Byte := Fin 256

/-- The constant `const int NUMBER_OF_ARGS = 3;`. -/
def NUMBER_OF_ARGS : Nat := 3

/-- The constant `const int PACKET_SIZE = 1024;`. -/
def PACKET_SIZE : Nat := 1024

/-- The `struct timeval` of `<sys/time.h>`. -/
structure Timeval where
  tv_sec : Int
  tv_usec : Int
deriving DecidableEq, Repr

/-- What one call of `select(sockfd+1, NULL, &writefds, NULL, &timeout)` does,
as a function of the value of `timeout` at the call: the value returned and the
value left in `timeout` (Linux overwrites it with the time not slept). -/
abbrev SelectBehaviour := Timeval → Int × Timeval

/-- The places where the program ends the process with `exit(1)`, named as in
the error taxonomy of the specification where it has a name for them. -/
inductive Failure where
  /-- In `setupEnvironment`: `fcntl(sockfd, F_GETFL, 0) == -1`. -/
  | FcntlGetError
  /-- In `setupEnvironment`: `fcntl(sockfd, F_SETFL, flags | O_NONBLOCK) == -1`. -/
  | FcntlSetError
  /-- In `serverConnect`: `connect() failed`. -/
  | ConnectError
  /-- In `serverConnect`: `select() failed`. -/
  | ConnectCheckError
  /-- In `serverConnect`: `Timeout! Client has not been able to connect ...`. -/
  | ConnectTimeout
  /-- In `createClientAddr`: `getsockname() failed`. -/
  | GetsocknameError
  /-- In `communicate`: `select() failed.` -/
  | SendCheckError
  /-- In `communicate`: `Timeout! Client has not been able to send data ...`. -/
  | SendTimeout
  /-- In `communicate`: `Unable to send data to server`. -/
  | SendError
deriving DecidableEq, Repr

/-- The calls a run performs.  Calls whose result steers the program carry it. -/
inductive Event where
  /-- The call `fcntl(sockfd, ...)`, with the value returned. -/
  | fcntl (ret : Int)
  /-- The call `connect(sockfd, ...)`, with the value returned and `errno` after it. -/
  | connect (ret : Int) (errno : Int)
  /-- The call `select(sockfd+1, NULL, &writefds, NULL, &timeout)`, with the value of
  `timeout` at the call and the value returned. -/
  | select (timeout : Timeval) (ret : Int)
  /-- The call `getsockname(sockfd, ...)`, with the value returned. -/
  | getsockname (ret : Int)
  /-- The call `fin.open(filename, std::ios::in)`; `ok` tells whether the file was opened. -/
  | fopen (ok : Bool)
  /-- The call `fin.read(buf, PACKET_SIZE)`, with `fin.gcount()` after it. -/
  | read (gcount : Nat)
  /-- The call `send(sockfd, buf, fin.gcount(), MSG_NOSIGNAL)`, with the bytes
  `buf[0..gcount)` handed over and the value returned. -/
  | send (buf : List Byte) (ret : Int)
  /-- The call `fin.close()`. -/
  | fclose
  /-- The call `close(sockfd)`. -/
  | close
  /-- The call `exit(status)`. -/
  | exit (status : Int)
deriving DecidableEq, Repr

/-- How a function ends. -/
inductive Outcome where
  /-- The function returned to its caller. -/
  | returned
  /-- The function ended the process through `exit(1)`. -/
  | failed (kind : Failure)
deriving DecidableEq, Repr

/-- A run: the calls performed, in order, and the way it ended. -/
structure Run where
  trace : List Event
  outcome : Outcome
deriving DecidableEq, Repr

/-- The calls `pre` happen, then the run `r`. -/
def Run.after (pre : List Event) (r : Run) : Run :=
  ⟨pre ++ r.trace, r.outcome⟩

/-- Sequencing of two parts of the program: `next` runs only when `r` returned. -/
def Run.andThen (r : Run) (next : Run) : Run :=
  match r.outcome with
  | .returned => ⟨r.trace ++ next.trace, next.outcome⟩
  | .failed k => ⟨r.trace, .failed k⟩

/-- Everything the program takes from outside after the socket is created. -/
structure Env where
  /-- Result of `fcntl(sockfd, F_GETFL, 0)`. -/
  fcntlGet : Int
  /-- Result of `fcntl(sockfd, F_SETFL, flags | O_NONBLOCK)`. -/
  fcntlSet : Int
  /-- Result of `connect()`. -/
  connectResult : Int
  /-- Value of `errno` after `connect()`. -/
  connectErrno : Int
  /-- The `select()` of `serverConnect`. -/
  connectSelect : SelectBehaviour
  /-- Result of `getsockname()`. -/
  getsocknameResult : Int
  /-- Content of the file `filename`; `none` when it cannot be opened. -/
  file : Option (List Byte)
  /-- The `select()` calls of `communicate`, numbered from 0 in call order. -/
  select : Nat → SelectBehaviour
  /-- The `send()` calls of `communicate`, numbered from 0 in call order: the
  value returned for the bytes handed over. -/
  send : Nat → List Byte → Int

/-- The calls of `void exitOnError(int sockfd)`: `close(sockfd)`, then `exit(1)`. -/
def exitOnError : List Event := [.close, .exit 1]

/-! ## `std::fstream` -/

/-- The part of the state of `std::fstream fin` the program depends on: the
bytes not yet extracted and the state flags.  The medium itself never fails
(`badbit` is never set). -/
structure FStream where
  data : List Byte
  eofbit : Bool
  failbit : Bool
deriving DecidableEq, Repr

/-- The stream after `fin.open(filename, std::ios::in)` on a fresh stream: on
failure `failbit` is set and there is nothing to extract. -/
def FStream.openFile (file : Option (List Byte)) : FStream :=
  match file with
  | some content => ⟨content, false, false⟩
  | none => ⟨[], false, true⟩

/-- The test `fin.good()`: no state flag is set. -/
def FStream.good (s : FStream) : Bool := !s.eofbit && !s.failbit

/-- The conversion to `bool` in `while (fin)`: `!fin.fail()`. -/
def FStream.toBool (s : FStream) : Bool := !s.failbit

/-- The call `fin.read(buf, n)`: the bytes stored in `buf[0..gcount)` and the stream
afterwards.  When the stream is not `good()` the sentry fails: nothing is
extracted and `failbit` is set.  Otherwise up to `n` bytes are extracted, and
when the end of the file is met before `n` bytes were extracted both `eofbit`
and `failbit` are set. -/
def FStream.read (s : FStream) (n : Nat) : List Byte × FStream :=
  if s.good then
    if n ≤ s.data.length then
      (s.data.take n, { s with data := s.data.drop n })
    else
      (s.data, { s with data := [], eofbit := true, failbit := true })
  else
    ([], { s with failbit := true })

/-! ## `communicate` -/

/-- The body of `do { ... } while (fin);` in `communicate`, from the top of one
iteration to the end of the loop.  `i` counts the iterations already done (the
`select` and `send` of this iteration are call number `i`), `fin` and `timeout`
are the variables of that name. -/
def communicateLoop (env : Env) (i : Nat) (fin : FStream) (timeout : Timeval) : Run :=
  -- fin.read(buf, PACKET_SIZE);
  let buf := (fin.read PACKET_SIZE).1
  let fin1 := (fin.read PACKET_SIZE).2
  -- if (fin.gcount() == 0) break;
  if buf.length = 0 then
    ⟨[.read 0], .returned⟩
  else
    -- int sel_res = select(sockfd+1,NULL,&writefds,NULL,&timeout);
    let sel_res := (env.select i timeout).1
    let timeout1 := (env.select i timeout).2
    if sel_res = -1 then
      -- printError("select() failed."); exitOnError(sockfd);
      ⟨[.read buf.length, .select timeout sel_res] ++ exitOnError, .failed .SendCheckError⟩
    else if sel_res = 0 then
      -- printError("Timeout! ..."); exitOnError(sockfd);
      ⟨[.read buf.length, .select timeout sel_res] ++ exitOnError, .failed .SendTimeout⟩
    else
      -- send(sockfd, buf, fin.gcount(), MSG_NOSIGNAL) == -1
      let sent := env.send i buf
      if sent = -1 then
        -- printError("Unable to send data to server"); exitOnError(sockfd);
        ⟨[.read buf.length, .select timeout sel_res, .send buf sent] ++ exitOnError,
          .failed .SendError⟩
      else
        -- timeout.tv_sec = 10; timeout.tv_usec = 0;
        let timeout2 : Timeval := { timeout1 with tv_sec := 10, tv_usec := 0 }
        -- while (fin)
        if hc : fin1.toBool = true then
          (communicateLoop env (i + 1) fin1 timeout2).after
            [.read buf.length, .select timeout sel_res, .send buf sent]
        else
          ⟨[.read buf.length, .select timeout sel_res, .send buf sent], .returned⟩
termination_by fin.data.length
decreasing_by
  have hc1 : (fin.read PACKET_SIZE).2.toBool = true := hc
  unfold FStream.read at hc1 ⊢
  by_cases hg : fin.good = true
  · by_cases hle : PACKET_SIZE ≤ fin.data.length
    · have hpos : 0 < PACKET_SIZE := by decide
      simp only [hg, hle, if_true, List.length_drop]
      omega
    · simp [hg, hle, FStream.toBool] at hc1
  · simp [hg, FStream.toBool] at hc1

/-- The function `void communicate(const int sockfd, const std::string filename)`:
open the file, set `timeout` to 10 s, run the loop, and `fin.close()` when the
loop is left normally. -/
def communicate (env : Env) : Run :=
  (Run.after [.fopen env.file.isSome]
    (communicateLoop env 0 (FStream.openFile env.file) ⟨10, 0⟩)).andThen ⟨[.fclose], .returned⟩

/-! ## Connecting -/

/-- The function `void setupEnvironment(const int sockfd)`: both `fcntl` calls
leave through `exitOnError(sockfd)` when they return -1. -/
def setupEnvironment (env : Env) : Run :=
  let flags := env.fcntlGet
  if flags = -1 then
    ⟨[.fcntl flags] ++ exitOnError, .failed .FcntlGetError⟩
  else if env.fcntlSet = -1 then
    ⟨[.fcntl flags, .fcntl env.fcntlSet] ++ exitOnError, .failed .FcntlSetError⟩
  else
    ⟨[.fcntl flags, .fcntl env.fcntlSet], .returned⟩

/-- The function
`void serverConnect(const int sockfd, const struct sockaddr_in &serverAddr)`.
`EINPROGRESS` is the constant of `<errno.h>`, which the repository does not
define.  The three failure branches call `perror` and then `exit(1)`. -/
def serverConnect (EINPROGRESS : Int) (env : Env) : Run :=
  -- timeout.tv_sec = 15; timeout.tv_usec = 0;
  let timeout : Timeval := ⟨15, 0⟩
  -- int result = connect(sockfd, (struct sockaddr *)&serverAddr, sizeof(serverAddr));
  let result := env.connectResult
  if result = -1 then
    if env.connectErrno = EINPROGRESS then
      -- int selectResult = select(sockfd + 1, NULL, &writefds, NULL, &timeout);
      let selectResult := (env.connectSelect timeout).1
      if selectResult = -1 then
        ⟨[.connect result env.connectErrno, .select timeout selectResult, .exit 1],
          .failed .ConnectCheckError⟩
      else if selectResult = 0 then
        ⟨[.connect result env.connectErrno, .select timeout selectResult, .exit 1],
          .failed .ConnectTimeout⟩
      else
        ⟨[.connect result env.connectErrno, .select timeout selectResult], .returned⟩
    else
      ⟨[.connect result env.connectErrno, .exit 1], .failed .ConnectError⟩
  else
    ⟨[.connect result env.connectErrno], .returned⟩

/-- The function `struct sockaddr_in createClientAddr(const int sockfd)`:
`perror` and `exit(1)` when `getsockname` returns -1. -/
def createClientAddr (env : Env) : Run :=
  if env.getsocknameResult = -1 then
    ⟨[.getsockname env.getsocknameResult, .exit 1], .failed .GetsocknameError⟩
  else
    ⟨[.getsockname env.getsocknameResult], .returned⟩

/-- The function `void connectionSetup(const struct sockaddr_in clientAddr)`: it
only formats the address into a local buffer. -/
def connectionSetup : Run := ⟨[], .returned⟩

/-- The part of `main` between the creation of the socket and `communicate`. -/
def connectPhase (EINPROGRESS : Int) (env : Env) : Run :=
  (setupEnvironment env).andThen
    ((serverConnect EINPROGRESS env).andThen
      ((createClientAddr env).andThen connectionSetup))

/-- The function `main`, from the creation of the socket on: `setupEnvironment`,
`serverConnect`, `createClientAddr`, `connectionSetup`, `communicate`,
`close(sockfd)`, `return 0`.  The outcome `returned` is `return 0`. -/
def main (EINPROGRESS : Int) (env : Env) : Run :=
  (connectPhase EINPROGRESS env).andThen
    ((communicate env).andThen ⟨[.close], .returned⟩)

/-! ## The port argument -/

/-- The function `isspace` of the C library in the "C" locale. -/
def isspace (c : Char) : Bool :=
  c = ' ' || c.toNat = 9 || c.toNat = 10 || c.toNat = 11 || c.toNat = 12 || c.toNat = 13

/-- The call `strtol(nptr, &endptr, 10)` of the C library on the characters of a string
(without the terminating NUL): the value returned and the characters from
`endptr` on.  White space is skipped, an optional sign is read, then the longest
run of decimal digits; without a digit no conversion is done, the value is 0
and `endptr` is `nptr`; a value outside `[LONG_MIN, LONG_MAX]` (the constants of
`<climits>`) is clamped. -/
def strtol (LONG_MIN LONG_MAX : Int) (nptr : List Char) : Int × List Char :=
  let s1 := nptr.dropWhile isspace
  let neg := s1.head? = some '-'
  let s2 := if s1.head? = some '-' ∨ s1.head? = some '+' then s1.tail else s1
  let digits := s2.takeWhile Char.isDigit
  if digits = [] then
    (0, nptr)
  else
    let mag : Int := digits.foldl (fun acc d => 10 * acc + ((d.toNat : Int) - 48)) 0
    let v : Int := if neg then -mag else mag
    (if v > LONG_MAX then LONG_MAX else if v < LONG_MIN then LONG_MIN else v,
      s2.dropWhile Char.isDigit)

/-- The function `long parsePort(char **argv)` on `argv[2]`: `none` is `exit(1)`
after the message "Port number needs to be a valid integer greater than 1023.". -/
def parsePort (LONG_MIN LONG_MAX : Int) (arg : List Char) : Option Int :=
  let temp_port := (strtol LONG_MIN LONG_MAX arg).1
  let endptr := (strtol LONG_MIN LONG_MAX arg).2
  -- exit(1) when endptr is not at the terminating NUL, or temp_port < 1024, or temp_port > 65535
  if endptr ≠ [] ∨ temp_port < 1024 ∨ temp_port > 65535 then none else some temp_port

/-- The `struct Arguments`. -/
structure Arguments where
  port : Int
  host : String
  filename : String
deriving DecidableEq, Repr

/-- The three places where `parseArguments` ends the process with `exit(1)`. -/
inductive ArgumentError where
  /-- "Incorrect number of arguments". -/
  | count
  /-- "Host name is invalid.". -/
  | host
  /-- "Port number needs to be a valid integer greater than 1023.". -/
  | port
deriving DecidableEq, Repr

/-- The function `Arguments parseArguments(int argc, char** argv)`; `argv` is the
whole argument vector (`argc` is its length) and `resolve` is `getaddrinfo`
followed by `inet_ntop`: the numeric address of a host name, `none` when
`getaddrinfo` fails.  The port is read with `strtol(argv[2], nullptr, 10)`. -/
def parseArguments (LONG_MIN LONG_MAX : Int) (resolve : String → Option String)
    (argv : List String) : Except ArgumentError Arguments :=
  -- if (argc != (NUMBER_OF_ARGS + 1))
  if argv.length ≠ NUMBER_OF_ARGS + 1 then
    .error .count
  else
    -- if (getaddrinfo(argv[1], NULL, &hints, &info))
    match resolve (argv.getD 1 "") with
    | none => .error .host
    | some addr =>
      -- long temp_port = strtol(argv[2], nullptr, 10);
      let temp_port := (strtol LONG_MIN LONG_MAX (argv.getD 2 "").toList).1
      if temp_port = 0 ∨ temp_port = LONG_MAX ∨ temp_port = LONG_MIN
          ∨ temp_port < 1024 ∨ temp_port > 65535 then
        .error .port
      else
        .ok { port := temp_port, host := addr, filename := argv.getD 3 "" }

/-! ## Observations on a run -/

/-- The buffers handed to `send()`, in call order. -/
def sentBuffers (tr : List Event) : List (List Byte) :=
  tr.filterMap fun e => match e with
    | .send buf _ => some buf
    | _ => none

/-- The buffers of the `send()` calls that did not return -1, in call order. -/
def pushedChunks (tr : List Event) : List (List Byte) :=
  tr.filterMap fun e => match e with
    | .send buf ret => if ret = -1 then none else some buf
    | _ => none

/-- The bytes the transport accepted, in order, when the value `ret ≠ -1`
returned by `send()` is the number of bytes accepted from the front of the
buffer: what a peer reading the whole stream observes. -/
def acceptedBytes (tr : List Event) : List Byte :=
  (tr.filterMap fun e => match e with
    | .send buf ret => if ret = -1 then none else some (buf.take ret.toNat)
    | _ => none).flatten

/-- The values of `timeout` passed to `select()`, in call order. -/
def selectTimeouts (tr : List Event) : List Timeval :=
  tr.filterMap fun e => match e with
    | .select t _ => some t
    | _ => none

/-- The values of `fin.gcount()` after each `fin.read`, in call order. -/
def readCounts (tr : List Event) : List Nat :=
  tr.filterMap fun e => match e with
    | .read n => some n
    | _ => none

/-- Packet number `j` (from 0) of a file: `PACKET_SIZE` bytes from offset
`PACKET_SIZE * j`, fewer at the end of the file. -/
def chunk (file : List Byte) (j : Nat) : List Byte :=
  (file.drop (PACKET_SIZE * j)).take PACKET_SIZE

/-- A `timeval` in microseconds. -/
def Timeval.toUsec (t : Timeval) : Int := t.tv_sec * 1000000 + t.tv_usec

/-- The `select()` of Linux on a socket that becomes writable `d` microseconds
after the call: when that is within the timeout passed in, 1 is returned and
the timeout is replaced by the time left; otherwise the whole timeout is slept,
0 is returned and the timeout is left at zero. -/
def selectReadyAfter (d : Nat) : SelectBehaviour := fun t =>
  if (d : Int) ≤ t.toUsec then
    (1, ⟨(t.toUsec - d) / 1000000, (t.toUsec - d) % 1000000⟩)
  else
    (0, ⟨0, 0⟩)

/-- An environment in which every call succeeds at once: `select` returns 1 and
leaves `timeout` as it was, `send` accepts the whole buffer. -/
def readyEnv (file : Option (List Byte)) : Env where
  fcntlGet := 2
  fcntlSet := 0
  connectResult := 0
  connectErrno := 0
  connectSelect := fun t => (1, t)
  getsocknameResult := 0
  file := file
  select := fun _ t => (1, t)
  send := fun _ buf => (buf.length : Int)

/-- The peer closes the connection after the first packet: the first `send`
accepts its buffer, every later one returns -1. -/
def peerClosesEnv (file : Option (List Byte)) : Env :=
  { readyEnv file with send := fun j buf => if j = 0 then (buf.length : Int) else -1 }

/-- The peer stops reading: the socket is writable at once for the `select`
calls before call number `m` and never again from that call on. -/
def peerStallsEnv (file : Option (List Byte)) (m : Nat) : Env :=
  { readyEnv file with select := fun j t => if j < m then (1, t) else (0, ⟨0, 0⟩) }

/-- A slow peer: at every `select` of `communicate` the socket becomes writable
after 9 s. -/
def slowPeerEnv (file : Option (List Byte)) : Env :=
  { readyEnv file with select := fun _ => selectReadyAfter 9000000 }

/-- The transport takes one byte less than it is offered at every `send`. -/
def partialSendEnv (file : Option (List Byte)) : Env :=
  { readyEnv file with send := fun _ buf => (buf.length : Int) - 1 }

/-- Nobody listens on the port: `connect` returns -1 with `errno` 111
(`ECONNREFUSED` on Linux, where `EINPROGRESS` is 115). -/
def refusedEnv (file : Option (List Byte)) : Env :=
  { readyEnv file with connectResult := -1, connectErrno := 111 }

/-- The connection is lost before the first packet: every `send` returns -1. -/
def brokenPipeEnv (file : Option (List Byte)) : Env :=
  { readyEnv file with send := fun _ _ => -1 }

/-- The peer does not answer: `connect` returns -1 with `errno` 115
(`EINPROGRESS` on Linux) and the socket does not become writable in time. -/
def unreachableEnv (file : Option (List Byte)) : Env :=
  { readyEnv file with
    connectResult := -1, connectErrno := 115, connectSelect := fun _ => (0, ⟨0, 0⟩) }

/-- The calls of `k` consecutive iterations of the loop of `communicate` that
each send a whole packet and go round the loop, from iteration `i` on with `d`
still to be read. -/
def okTrace (env : Env) : Nat → Nat → List Byte → List Event
  | 0, _, _ => []
  | k + 1, i, d =>
    [.read PACKET_SIZE, .select ⟨10, 0⟩ (env.select i ⟨10, 0⟩).1,
      .send (d.take PACKET_SIZE) (env.send i (d.take PACKET_SIZE))]
      ++ okTrace env k (i + 1) (d.drop PACKET_SIZE)

/-! ## Auxiliary facts -/

theorem read_good_fst (d : List Byte) (n : Nat) :
    (FStream.read ⟨d, false, false⟩ n).1 = d.take n := by
  unfold FStream.read
  by_cases h : n ≤ d.length
  · simp [FStream.good, h]
  · have h1 : d.length ≤ n := by omega
    simp [FStream.good, h, List.take_of_length_le h1]

theorem read_good_snd_full (d : List Byte) (n : Nat) (h : n ≤ d.length) :
    (FStream.read ⟨d, false, false⟩ n).2 = ⟨d.drop n, false, false⟩ := by
  unfold FStream.read
  simp [FStream.good, h]

theorem read_good_snd_short (d : List Byte) (n : Nat) (h : d.length < n) :
    (FStream.read ⟨d, false, false⟩ n).2 = ⟨[], true, true⟩ := by
  unfold FStream.read
  have h1 : ¬ n ≤ d.length := by omega
  simp [FStream.good, h1]

theorem take_packet_length_ne_zero (d : List Byte) (h : d ≠ []) :
    (d.take PACKET_SIZE).length ≠ 0 := by
  have h1 : 0 < d.length := List.length_pos.mpr h
  have h2 : 0 < PACKET_SIZE := by decide
  simp only [List.length_take]
  omega

/-- The loop on a stream that is not `good()`: the read extracts nothing. -/
theorem loop_not_good (env : Env) (i : Nat) (fin : FStream) (t : Timeval)
    (h : fin.good = false) :
    communicateLoop env i fin t = ⟨[.read 0], .returned⟩ := by
  rw [communicateLoop]
  simp [FStream.read, h]

/-- The loop at the end of the file. -/
theorem loop_exhausted (env : Env) (i : Nat) (t : Timeval) :
    communicateLoop env i ⟨[], false, false⟩ t = ⟨[.read 0], .returned⟩ := by
  rw [communicateLoop]
  simp only [read_good_fst]
  simp

/-- One iteration whose `select` returns -1. -/
theorem loop_select_error (env : Env) (i : Nat) (d : List Byte) (t : Timeval)
    (hd : d ≠ []) (hsel : (env.select i t).1 = -1) :
    communicateLoop env i ⟨d, false, false⟩ t =
      ⟨[.read (d.take PACKET_SIZE).length, .select t (-1), .close, .exit 1],
        .failed .SendCheckError⟩ := by
  rw [communicateLoop]
  simp only [read_good_fst, take_packet_length_ne_zero d hd, hsel]
  simp [exitOnError]

/-- One iteration whose `select` returns 0. -/
theorem loop_select_timeout (env : Env) (i : Nat) (d : List Byte) (t : Timeval)
    (hd : d ≠ []) (hsel : (env.select i t).1 = 0) :
    communicateLoop env i ⟨d, false, false⟩ t =
      ⟨[.read (d.take PACKET_SIZE).length, .select t 0, .close, .exit 1],
        .failed .SendTimeout⟩ := by
  rw [communicateLoop]
  simp only [read_good_fst, take_packet_length_ne_zero d hd, hsel]
  simp [exitOnError]

/-- One iteration whose `send` returns -1. -/
theorem loop_send_error (env : Env) (i : Nat) (d : List Byte) (t : Timeval)
    (hd : d ≠ []) (h1 : (env.select i t).1 ≠ -1) (h0 : (env.select i t).1 ≠ 0)
    (hsend : env.send i (d.take PACKET_SIZE) = -1) :
    communicateLoop env i ⟨d, false, false⟩ t =
      ⟨[.read (d.take PACKET_SIZE).length, .select t (env.select i t).1,
          .send (d.take PACKET_SIZE) (-1), .close, .exit 1],
        .failed .SendError⟩ := by
  rw [communicateLoop]
  simp only [read_good_fst, take_packet_length_ne_zero d hd, h1, h0, hsend]
  simp [exitOnError]

/-- One iteration that sends a whole packet and goes round the loop. -/
theorem loop_step_full (env : Env) (i : Nat) (d : List Byte) (t : Timeval)
    (hlen : PACKET_SIZE ≤ d.length)
    (h1 : (env.select i t).1 ≠ -1) (h0 : (env.select i t).1 ≠ 0)
    (hsend : env.send i (d.take PACKET_SIZE) ≠ -1) :
    communicateLoop env i ⟨d, false, false⟩ t =
      (communicateLoop env (i + 1) ⟨d.drop PACKET_SIZE, false, false⟩ ⟨10, 0⟩).after
        [.read PACKET_SIZE, .select t (env.select i t).1,
          .send (d.take PACKET_SIZE) (env.send i (d.take PACKET_SIZE))] := by
  have hd : d ≠ [] := by
    intro h
    rw [h] at hlen
    exact absurd hlen (by decide)
  have hl : (d.take PACKET_SIZE).length = PACKET_SIZE := by
    simp only [List.length_take]; omega
  have hp : PACKET_SIZE ≠ 0 := by decide
  rw [communicateLoop]
  simp only [read_good_fst, read_good_snd_full d PACKET_SIZE hlen, h1, h0, hsend, hl]
  simp [FStream.toBool, hp]

/-- The iteration that sends the last, short packet and leaves the loop. -/
theorem loop_step_last (env : Env) (i : Nat) (d : List Byte) (t : Timeval)
    (hd : d ≠ []) (hlen : d.length < PACKET_SIZE)
    (h1 : (env.select i t).1 ≠ -1) (h0 : (env.select i t).1 ≠ 0)
    (hsend : env.send i d ≠ -1) :
    communicateLoop env i ⟨d, false, false⟩ t =
      ⟨[.read d.length, .select t (env.select i t).1, .send d (env.send i d)],
        .returned⟩ := by
  have ht : d.take PACKET_SIZE = d := List.take_of_length_le (by omega)
  have hnz := take_packet_length_ne_zero d hd
  rw [ht] at hnz
  rw [communicateLoop]
  simp only [read_good_fst, read_good_snd_short d PACKET_SIZE hlen, ht, hnz, h1, h0, hsend]
  simp [FStream.toBool]

theorem chunk_drop (d : List Byte) (j : Nat) :
    chunk (d.drop PACKET_SIZE) j = chunk d (j + 1) := by
  unfold chunk
  rw [List.drop_drop]
  congr 2
  ring

theorem chunk_zero (d : List Byte) : chunk d 0 = d.take PACKET_SIZE := by
  simp [chunk]

theorem map_chunk_range_succ (d : List Byte) (k : Nat) :
    (List.range (k + 1)).map (chunk d) =
      d.take PACKET_SIZE :: (List.range k).map (chunk (d.drop PACKET_SIZE)) := by
  rw [List.range_succ_eq_map, List.map_cons, List.map_map, chunk_zero]
  congr 1
  apply List.map_congr_left
  intro j _
  simp [chunk_drop]

/-- The first `k` packets of a file, put end to end, are its first
`PACKET_SIZE * k` bytes. -/
theorem flatten_map_chunk_range (k : Nat) (d : List Byte) :
    ((List.range k).map (chunk d)).flatten = d.take (PACKET_SIZE * k) := by
  induction k generalizing d with
  | zero => simp
  | succ k ih =>
    rw [map_chunk_range_succ, List.flatten_cons, ih, Nat.mul_succ, Nat.add_comm, List.take_add]

theorem sentBuffers_append (a b : List Event) :
    sentBuffers (a ++ b) = sentBuffers a ++ sentBuffers b := by
  simp [sentBuffers]

theorem pushedChunks_append (a b : List Event) :
    pushedChunks (a ++ b) = pushedChunks a ++ pushedChunks b := by
  simp [pushedChunks]

theorem selectTimeouts_append (a b : List Event) :
    selectTimeouts (a ++ b) = selectTimeouts a ++ selectTimeouts b := by
  simp [selectTimeouts]

theorem readCounts_append (a b : List Event) :
    readCounts (a ++ b) = readCounts a ++ readCounts b := by
  simp [readCounts]

theorem sentBuffers_okTrace (env : Env) (k i : Nat) (d : List Byte) :
    sentBuffers (okTrace env k i d) = (List.range k).map (chunk d) := by
  induction k generalizing i d with
  | zero => simp [okTrace, sentBuffers]
  | succ k ih =>
    rw [okTrace, sentBuffers_append, ih, map_chunk_range_succ]
    simp [sentBuffers]

theorem pushedChunks_okTrace (env : Env) (k i : Nat) (d : List Byte)
    (hok : ∀ j, j < k → env.send (i + j) (chunk d j) ≠ -1) :
    pushedChunks (okTrace env k i d) = (List.range k).map (chunk d) := by
  induction k generalizing i d with
  | zero => simp [okTrace, pushedChunks]
  | succ k ih =>
    have h0 : env.send i (d.take PACKET_SIZE) ≠ -1 := by
      have := hok 0 (Nat.succ_pos k)
      rwa [chunk_zero, Nat.add_zero] at this
    have hrest : ∀ j, j < k → env.send (i + 1 + j) (chunk (d.drop PACKET_SIZE) j) ≠ -1 := by
      intro j hj
      have := hok (j + 1) (by omega)
      rwa [chunk_drop, Nat.add_assoc, Nat.add_comm 1 j]
    rw [okTrace, pushedChunks_append, ih (i + 1) (d.drop PACKET_SIZE) hrest, map_chunk_range_succ]
    simp [pushedChunks, h0]

theorem readCounts_okTrace (env : Env) (k i : Nat) (d : List Byte) :
    readCounts (okTrace env k i d) = List.replicate k PACKET_SIZE := by
  induction k generalizing i d with
  | zero => simp [okTrace, readCounts]
  | succ k ih =>
    rw [okTrace, readCounts_append, ih, List.replicate_succ]
    simp [readCounts]

theorem selectTimeouts_okTrace (env : Env) (k i : Nat) (d : List Byte) :
    selectTimeouts (okTrace env k i d) = List.replicate k ⟨10, 0⟩ := by
  induction k generalizing i d with
  | zero => simp [okTrace, selectTimeouts]
  | succ k ih =>
    rw [okTrace, selectTimeouts_append, ih, List.replicate_succ]
    simp [selectTimeouts]

/-- After `k` iterations that each send a whole packet the loop is at
iteration `i + k` with the first `PACKET_SIZE * k` bytes consumed and `timeout`
back at 10 s. -/
theorem loop_prefix (env : Env) (k i : Nat) (d : List Byte)
    (hlen : PACKET_SIZE * k ≤ d.length)
    (hok : ∀ j, j < k →
      0 < (env.select (i + j) ⟨10, 0⟩).1 ∧ env.send (i + j) (chunk d j) ≠ -1) :
    communicateLoop env i ⟨d, false, false⟩ ⟨10, 0⟩ =
      (communicateLoop env (i + k) ⟨d.drop (PACKET_SIZE * k), false, false⟩ ⟨10, 0⟩).after
        (okTrace env k i d) := by
  induction k generalizing i d with
  | zero => simp [okTrace, Run.after]
  | succ k ih =>
    have hP : PACKET_SIZE ≤ d.length := by
      have : PACKET_SIZE * (k + 1) = PACKET_SIZE * k + PACKET_SIZE := Nat.mul_succ _ _
      omega
    have h0 := hok 0 (Nat.succ_pos k)
    rw [chunk_zero, Nat.add_zero] at h0
    have hrest : ∀ j, j < k → 0 < (env.select (i + 1 + j) ⟨10, 0⟩).1
        ∧ env.send (i + 1 + j) (chunk (d.drop PACKET_SIZE) j) ≠ -1 := by
      intro j hj
      have := hok (j + 1) (by omega)
      rwa [chunk_drop, Nat.add_assoc, Nat.add_comm 1 j]
    have hlen2 : PACKET_SIZE * k ≤ (d.drop PACKET_SIZE).length := by
      have : PACKET_SIZE * (k + 1) = PACKET_SIZE * k + PACKET_SIZE := Nat.mul_succ _ _
      simp only [List.length_drop]
      omega
    rw [loop_step_full env i d ⟨10, 0⟩ hP (by omega) (by omega) h0.2,
      ih (i + 1) (d.drop PACKET_SIZE) hlen2 hrest, okTrace, List.drop_drop]
    have e1 : i + 1 + k = i + (k + 1) := by omega
    have e2 : PACKET_SIZE + PACKET_SIZE * k = PACKET_SIZE * (k + 1) := by ring
    rw [e1, e2]
    simp [Run.after]

theorem map_length_map_chunk_range (k : Nat) (d : List Byte)
    (hlen : PACKET_SIZE * k ≤ d.length) :
    ((List.range k).map (chunk d)).map List.length = List.replicate k PACKET_SIZE := by
  induction k generalizing d with
  | zero => simp
  | succ k ih =>
    have e : PACKET_SIZE * (k + 1) = PACKET_SIZE * k + PACKET_SIZE := Nat.mul_succ _ _
    have h2 : PACKET_SIZE * k ≤ (d.drop PACKET_SIZE).length := by
      simp only [List.length_drop]
      omega
    have h3 : (d.take PACKET_SIZE).length = PACKET_SIZE := by
      simp only [List.length_take]
      omega
    rw [map_chunk_range_succ, List.map_cons, ih _ h2, h3, List.replicate_succ]

/-- The whole run of `communicate` on a file that can be opened, when every
`select` of the run reports the socket writable and no `send` of the run
returns -1: whole packets, then the rest of the file when there is one (or the
read that finds the end of the file), then `fin.close()`. -/
theorem communicate_ok_run (env : Env) (file : List Byte) (hfile : env.file = some file)
    (hok : ∀ j, PACKET_SIZE * j < file.length →
      0 < (env.select j ⟨10, 0⟩).1 ∧ env.send j (chunk file j) ≠ -1) :
    communicate env =
      ⟨[.fopen true] ++ okTrace env (file.length / PACKET_SIZE) 0 file ++
        (if file.drop (PACKET_SIZE * (file.length / PACKET_SIZE)) = [] then [.read 0]
         else
          [.read (file.drop (PACKET_SIZE * (file.length / PACKET_SIZE))).length,
            .select ⟨10, 0⟩ (env.select (file.length / PACKET_SIZE) ⟨10, 0⟩).1,
            .send (file.drop (PACKET_SIZE * (file.length / PACKET_SIZE)))
              (env.send (file.length / PACKET_SIZE)
                (file.drop (PACKET_SIZE * (file.length / PACKET_SIZE))))]) ++ [.fclose],
        .returned⟩ := by
  have hklen : PACKET_SIZE * (file.length / PACKET_SIZE) ≤ file.length := Nat.mul_div_le _ _
  have hpre : ∀ j, j < file.length / PACKET_SIZE →
      0 < (env.select (0 + j) ⟨10, 0⟩).1 ∧ env.send (0 + j) (chunk file j) ≠ -1 := by
    intro j hj
    rw [Nat.zero_add]
    apply hok
    simp only [PACKET_SIZE] at hj hklen ⊢
    omega
  have hrlen : (file.drop (PACKET_SIZE * (file.length / PACKET_SIZE))).length < PACKET_SIZE := by
    simp only [List.length_drop, PACKET_SIZE]
    omega
  have hopen : FStream.openFile (some file) = ⟨file, false, false⟩ := rfl
  unfold communicate
  rw [hfile, hopen, loop_prefix env _ 0 file hklen hpre, Nat.zero_add]
  by_cases hr : file.drop (PACKET_SIZE * (file.length / PACKET_SIZE)) = []
  · rw [hr, loop_exhausted]
    simp [Run.after, Run.andThen]
  · have hlt : PACKET_SIZE * (file.length / PACKET_SIZE) < file.length := by
      have := List.length_pos.mpr hr
      simp only [List.length_drop] at this
      omega
    have hk := hok _ hlt
    have hchunk : chunk file (file.length / PACKET_SIZE)
        = file.drop (PACKET_SIZE * (file.length / PACKET_SIZE)) := by
      unfold chunk
      exact List.take_of_length_le (Nat.le_of_lt hrlen)
    rw [hchunk] at hk
    rw [loop_step_last env _ _ ⟨10, 0⟩ hr hrlen (by omega) (by omega) hk.2]
    simp [Run.after, Run.andThen, hr]

/-- The run of `communicate` up to the iteration after `m` iterations that each
sent a whole packet. -/
theorem communicate_after_prefix (env : Env) (file : List Byte) (m : Nat)
    (hfile : env.file = some file) (hreach : PACKET_SIZE * m < file.length)
    (hprev : ∀ j, j < m → 0 < (env.select j ⟨10, 0⟩).1 ∧ env.send j (chunk file j) ≠ -1) :
    communicate env =
      (Run.after ([.fopen true] ++ okTrace env m 0 file)
        (communicateLoop env m ⟨file.drop (PACKET_SIZE * m), false, false⟩ ⟨10, 0⟩)).andThen
        ⟨[.fclose], .returned⟩ := by
  have hopen : FStream.openFile (some file) = ⟨file, false, false⟩ := rfl
  have hpre : ∀ j, j < m →
      0 < (env.select (0 + j) ⟨10, 0⟩).1 ∧ env.send (0 + j) (chunk file j) ≠ -1 := by
    intro j hj
    rw [Nat.zero_add]
    exact hprev j hj
  unfold communicate
  rw [hfile, hopen, loop_prefix env m 0 file (Nat.le_of_lt hreach) hpre, Nat.zero_add]
  simp [Run.after]

theorem mem_andThen_after (pre : List Event) (r next : Run) (e : Event) (h : e ∈ r.trace) :
    e ∈ ((Run.after pre r).andThen next).trace := by
  obtain ⟨tr, out⟩ := r
  cases out <;> simp [Run.after, Run.andThen, (show e ∈ tr from h)]

/-- An iteration that extracts something calls `select`. -/
theorem loop_first_select (env : Env) (i : Nat) (d : List Byte) (t : Timeval) (hd : d ≠ []) :
    Event.select t (env.select i t).1 ∈ (communicateLoop env i ⟨d, false, false⟩ t).trace := by
  by_cases h1 : (env.select i t).1 = -1
  · rw [loop_select_error env i d t hd h1, h1]
    simp
  by_cases h0 : (env.select i t).1 = 0
  · rw [loop_select_timeout env i d t hd h0, h0]
    simp
  by_cases hs : env.send i (d.take PACKET_SIZE) = -1
  · rw [loop_send_error env i d t hd h1 h0 hs]
    simp
  by_cases hl : PACKET_SIZE ≤ d.length
  · rw [loop_step_full env i d t hl h1 h0 hs]
    simp [Run.after]
  · have ht : d.take PACKET_SIZE = d := List.take_of_length_le (by omega)
    rw [ht] at hs
    rw [loop_step_last env i d t hd (by omega) h1 h0 hs]
    simp

/-- An iteration whose `select` returns neither -1 nor 0 calls `send` with the
bytes just read. -/
theorem loop_first_send (env : Env) (i : Nat) (d : List Byte) (t : Timeval) (hd : d ≠ [])
    (h1 : (env.select i t).1 ≠ -1) (h0 : (env.select i t).1 ≠ 0) :
    Event.send (d.take PACKET_SIZE) (env.send i (d.take PACKET_SIZE))
      ∈ (communicateLoop env i ⟨d, false, false⟩ t).trace := by
  by_cases hs : env.send i (d.take PACKET_SIZE) = -1
  · rw [loop_send_error env i d t hd h1 h0 hs, hs]
    simp
  by_cases hl : PACKET_SIZE ≤ d.length
  · rw [loop_step_full env i d t hl h1 h0 hs]
    simp [Run.after]
  · have ht : d.take PACKET_SIZE = d := List.take_of_length_le (by omega)
    rw [ht] at hs ⊢
    rw [loop_step_last env i d t hd (by omega) h1 h0 hs]
    simp

/-- When every `select` met in the run of `communicate` returned a positive
value and no `send` met in the run returned -1, the calls for every packet of
the file were made and succeeded. -/
theorem calls_succeed_of_trace (env : Env) (file : List Byte) (hfile : env.file = some file)
    (hsel : ∀ t r, Event.select t r ∈ (communicate env).trace → 0 < r)
    (hsend : ∀ buf r, Event.send buf r ∈ (communicate env).trace → r ≠ -1) :
    ∀ j, PACKET_SIZE * j < file.length →
      0 < (env.select j ⟨10, 0⟩).1 ∧ env.send j (chunk file j) ≠ -1 := by
  intro j
  induction j using Nat.strong_induction_on with
  | _ j ih =>
    intro hj
    have hprev : ∀ j', j' < j →
        0 < (env.select j' ⟨10, 0⟩).1 ∧ env.send j' (chunk file j') ≠ -1 := by
      intro j' hj'
      apply ih j' hj'
      simp only [PACKET_SIZE] at hj ⊢
      omega
    have hrun := communicate_after_prefix env file j hfile hj hprev
    have hr : file.drop (PACKET_SIZE * j) ≠ [] := by
      intro h
      have := List.drop_eq_nil_iff.mp h
      omega
    have h1 : 0 < (env.select j ⟨10, 0⟩).1 := by
      apply hsel ⟨10, 0⟩
      rw [hrun]
      exact mem_andThen_after _ _ _ _ (loop_first_select env j _ _ hr)
    refine ⟨h1, ?_⟩
    apply hsend (chunk file j)
    rw [hrun]
    exact mem_andThen_after _ _ _ _ (loop_first_send env j _ _ hr (by omega) (by omega))

/-- Every call made by the loop of `communicate`, entered with `timeout` at
10 s, is a read, a `select` passed 10 s, a `send`, or the `close(sockfd)` and
`exit(1)` of `exitOnError`. -/
theorem loop_trace_events (env : Env) (P : Event → Prop)
    (hread : ∀ n, P (.read n))
    (hselect : ∀ i, P (.select ⟨10, 0⟩ (env.select i ⟨10, 0⟩).1))
    (hsend : ∀ i buf, P (.send buf (env.send i buf)))
    (hclose : P .close) (hexit : P (.exit 1)) (n : Nat) :
    ∀ (i : Nat) (fin : FStream), fin.data.length = n →
      ∀ e ∈ (communicateLoop env i fin ⟨10, 0⟩).trace, P e := by
  induction n using Nat.strong_induction_on with
  | _ n ih =>
    intro i fin hn e he
    by_cases hg : fin.good = true
    · obtain ⟨d, eof, fail⟩ := fin
      simp only [FStream.good, Bool.and_eq_true, Bool.not_eq_true'] at hg
      obtain ⟨heof, hfail⟩ := hg
      subst heof hfail
      simp only at hn
      have hsel := hselect i
      have hsnd := hsend i (d.take PACKET_SIZE)
      by_cases hd : d = []
      · subst hd
        rw [loop_exhausted] at he
        simp only [List.mem_singleton] at he
        subst he
        exact hread 0
      by_cases h1 : (env.select i ⟨10, 0⟩).1 = -1
      · rw [loop_select_error env i d _ hd h1] at he
        rw [h1] at hsel
        simp only [List.mem_cons, List.mem_singleton, List.not_mem_nil, or_false] at he
        rcases he with he | he | he | he <;> subst he
        exacts [hread _, hsel, hclose, hexit]
      by_cases h0 : (env.select i ⟨10, 0⟩).1 = 0
      · rw [loop_select_timeout env i d _ hd h0] at he
        rw [h0] at hsel
        simp only [List.mem_cons, List.mem_singleton, List.not_mem_nil, or_false] at he
        rcases he with he | he | he | he <;> subst he
        exacts [hread _, hsel, hclose, hexit]
      by_cases hs : env.send i (d.take PACKET_SIZE) = -1
      · rw [loop_send_error env i d _ hd h1 h0 hs] at he
        rw [hs] at hsnd
        simp only [List.mem_cons, List.mem_singleton, List.not_mem_nil, or_false] at he
        rcases he with he | he | he | he | he <;> subst he
        exacts [hread _, hsel, hsnd, hclose, hexit]
      by_cases hl : PACKET_SIZE ≤ d.length
      · rw [loop_step_full env i d _ hl h1 h0 hs] at he
        have hlt : (d.drop PACKET_SIZE).length < n := by
          have hp : 0 < PACKET_SIZE := by decide
          simp only [List.length_drop]
          omega
        simp only [Run.after, List.mem_append, List.mem_cons, List.mem_singleton,
          List.not_mem_nil, or_false] at he
        rcases he with (he | he | he) | he
        · subst he; exact hread _
        · subst he; exact hsel
        · subst he; exact hsnd
        · exact ih _ hlt (i + 1) ⟨d.drop PACKET_SIZE, false, false⟩ rfl e he
      · have ht : d.take PACKET_SIZE = d := List.take_of_length_le (by omega)
        rw [ht] at hs hsnd
        rw [loop_step_last env i d _ hd (by omega) h1 h0 hs] at he
        simp only [List.mem_cons, List.mem_singleton, List.not_mem_nil, or_false] at he
        rcases he with he | he | he <;> subst he
        exacts [hread _, hsel, hsnd]
    · rw [loop_not_good env i fin _ (by simpa using hg)] at he
      simp only [List.mem_singleton] at he
      subst he
      exact hread 0

/-- Every call made by `communicate` is `fin.open`, `fin.close()` or a call of
its loop. -/
theorem communicate_trace_events (env : Env) (P : Event → Prop)
    (hopen : ∀ b, P (.fopen b)) (hfclose : P .fclose)
    (hread : ∀ n, P (.read n))
    (hselect : ∀ i, P (.select ⟨10, 0⟩ (env.select i ⟨10, 0⟩).1))
    (hsend : ∀ i buf, P (.send buf (env.send i buf)))
    (hclose : P .close) (hexit : P (.exit 1)) :
    ∀ e ∈ (communicate env).trace, P e := by
  intro e he
  have hloop := loop_trace_events env P hread hselect hsend hclose hexit _ 0
    (FStream.openFile env.file) rfl
  unfold communicate at he
  generalize communicateLoop env 0 (FStream.openFile env.file) ⟨10, 0⟩ = r at he hloop
  obtain ⟨tr, out⟩ := r
  cases out with
  | returned =>
    simp only [Run.after, Run.andThen, List.mem_append, List.mem_singleton] at he
    rcases he with (he | he) | he
    · subst he; exact hopen _
    · exact hloop e he
    · subst he; exact hfclose
  | failed kind =>
    simp only [Run.after, Run.andThen, List.mem_append, List.mem_singleton] at he
    rcases he with he | he
    · subst he; exact hopen _
    · exact hloop e he

/-- In `readyEnv` every `select` of `communicate` returns a positive value and
no `send` returns -1. -/
theorem readyEnv_trace (file : Option (List Byte)) :
    (∀ t r, Event.select t r ∈ (communicate (readyEnv file)).trace → 0 < r)
    ∧ (∀ buf r, Event.send buf r ∈ (communicate (readyEnv file)).trace → r ≠ -1) := by
  have h : ∀ e ∈ (communicate (readyEnv file)).trace,
      (∀ t r, e = Event.select t r → 0 < r) ∧ (∀ buf r, e = Event.send buf r → r ≠ -1) := by
    apply communicate_trace_events (readyEnv file)
      (fun e => (∀ t r, e = Event.select t r → 0 < r) ∧ (∀ buf r, e = Event.send buf r → r ≠ -1))
    · intro b
      exact ⟨fun t r h => Event.noConfusion h, fun buf r h => Event.noConfusion h⟩
    · exact ⟨fun t r h => Event.noConfusion h, fun buf r h => Event.noConfusion h⟩
    · intro n
      exact ⟨fun t r h => Event.noConfusion h, fun buf r h => Event.noConfusion h⟩
    · intro i
      refine ⟨fun t r h => ?_, fun buf r h => Event.noConfusion h⟩
      cases h
      show (0 : Int) < 1
      decide
    · intro i b
      refine ⟨fun t r h => Event.noConfusion h, fun buf r h => ?_⟩
      cases h
      show ((_ : Nat) : Int) ≠ -1
      omega
    · exact ⟨fun t r h => Event.noConfusion h, fun buf r h => Event.noConfusion h⟩
    · exact ⟨fun t r h => Event.noConfusion h, fun buf r h => Event.noConfusion h⟩
  exact ⟨fun t r hm => (h _ hm).1 t r rfl, fun buf r hm => (h _ hm).2 buf r rfl⟩

/-- When no `select` passed 10 s returns 0, the loop of `communicate` entered
with `timeout` at 10 s does not end with `SendTimeout`. -/
theorem loop_no_timeout (env : Env) (hsel : ∀ j, (env.select j ⟨10, 0⟩).1 ≠ 0) (n : Nat) :
    ∀ (i : Nat) (fin : FStream), fin.data.length = n →
      (communicateLoop env i fin ⟨10, 0⟩).outcome ≠ .failed .SendTimeout := by
  induction n using Nat.strong_induction_on with
  | _ n ih =>
    intro i fin hn
    by_cases hg : fin.good = true
    · obtain ⟨d, eof, fail⟩ := fin
      simp only [FStream.good, Bool.and_eq_true, Bool.not_eq_true'] at hg
      obtain ⟨heof, hfail⟩ := hg
      subst heof hfail
      simp only at hn
      by_cases hd : d = []
      · subst hd
        rw [loop_exhausted]
        simp
      by_cases h1 : (env.select i ⟨10, 0⟩).1 = -1
      · rw [loop_select_error env i d _ hd h1]
        simp
      have h0 := hsel i
      by_cases hs : env.send i (d.take PACKET_SIZE) = -1
      · rw [loop_send_error env i d _ hd h1 h0 hs]
        simp
      by_cases hl : PACKET_SIZE ≤ d.length
      · rw [loop_step_full env i d _ hl h1 h0 hs]
        have hlt : (d.drop PACKET_SIZE).length < n := by
          have hp : 0 < PACKET_SIZE := by decide
          simp only [List.length_drop]
          omega
        exact ih _ hlt (i + 1) ⟨d.drop PACKET_SIZE, false, false⟩ rfl
      · have ht : d.take PACKET_SIZE = d := List.take_of_length_le (by omega)
        rw [ht] at hs
        rw [loop_step_last env i d _ hd (by omega) h1 h0 hs]
        simp
    · rw [loop_not_good env i fin _ (by simpa using hg)]
      simp

/-! ## The claims -/

/-- C1: for every file content and every run of `communicate` on it in which
every `select` reports the socket writable (returns a positive value) and no
`send` returns -1, the buffers handed to `send`, put end to end in call order,
are exactly the content of the file, and `communicate` returns normally. -/
theorem communicate_sends_file_content (env : Env) (file : List Byte)
    (hfile : env.file = some file)
    (hsel : ∀ t r, Event.select t r ∈ (communicate env).trace → 0 < r)
    (hsend : ∀ buf r, Event.send buf r ∈ (communicate env).trace → r ≠ -1) :
    (sentBuffers (communicate env).trace).flatten = file
      ∧ (communicate env).outcome = .returned := by
  have hok := calls_succeed_of_trace env file hfile hsel hsend
  rw [communicate_ok_run env file hfile hok]
  refine ⟨?_, rfl⟩
  simp only [sentBuffers_append, sentBuffers_okTrace, List.flatten_append,
    flatten_map_chunk_range]
  by_cases hr : file.drop (PACKET_SIZE * (file.length / PACKET_SIZE)) = []
  · have hle := List.drop_eq_nil_iff.mp hr
    simp [hr, sentBuffers, List.take_of_length_le hle]
  · simp [hr, sentBuffers]

theorem communicate_sends_file_content_witness :
    (sentBuffers (communicate (readyEnv (some (List.replicate 2500 7)))).trace).flatten
        = List.replicate 2500 7
      ∧ (communicate (readyEnv (some (List.replicate 2500 7)))).outcome = .returned :=
  communicate_sends_file_content (readyEnv (some (List.replicate 2500 7)))
    (List.replicate 2500 7) rfl (readyEnv_trace _).1 (readyEnv_trace _).2

/-- C3: for a file of `n` bytes, in a run of `communicate` in which every
`select` reports the socket writable and no `send` returns -1, `communicate`
returns normally after exactly `⌈n / 1024⌉` calls of `send`; all of them but the
last ask for 1024 bytes and the last asks for `n - 1024 * (⌈n / 1024⌉ - 1)`
bytes, a number between 1 and 1024. -/
theorem communicate_packet_sizes (env : Env) (file : List Byte)
    (hfile : env.file = some file)
    (hsel : ∀ t r, Event.select t r ∈ (communicate env).trace → 0 < r)
    (hsend : ∀ buf r, Event.send buf r ∈ (communicate env).trace → r ≠ -1) :
    (communicate env).outcome = .returned
      ∧ (sentBuffers (communicate env).trace).length = (file.length + 1023) / 1024
      ∧ (sentBuffers (communicate env).trace).map List.length =
          List.replicate ((file.length + 1023) / 1024 - 1) 1024 ++
            (if file.length = 0 then []
             else [file.length - 1024 * ((file.length + 1023) / 1024 - 1)])
      ∧ (0 < file.length →
          1 ≤ file.length - 1024 * ((file.length + 1023) / 1024 - 1)
            ∧ file.length - 1024 * ((file.length + 1023) / 1024 - 1) ≤ 1024) := by
  have hok := calls_succeed_of_trace env file hfile hsel hsend
  have hsizes : (sentBuffers (communicate env).trace).map List.length =
      List.replicate ((file.length + 1023) / 1024 - 1) 1024 ++
        (if file.length = 0 then []
         else [file.length - 1024 * ((file.length + 1023) / 1024 - 1)]) := by
    rw [communicate_ok_run env file hfile hok]
    simp only [sentBuffers_append, sentBuffers_okTrace, List.map_append,
      map_length_map_chunk_range _ file (Nat.mul_div_le _ _)]
    by_cases hr : file.drop (PACKET_SIZE * (file.length / PACKET_SIZE)) = []
    · have hle := List.drop_eq_nil_iff.mp hr
      simp only [PACKET_SIZE] at hle hr ⊢
      by_cases hn : file.length = 0
      · have hnil : file = [] := List.length_eq_zero.mp hn
        subst hnil
        simp [sentBuffers]
      · obtain ⟨m, hm⟩ : ∃ m, file.length / 1024 = m + 1 := ⟨file.length / 1024 - 1, by omega⟩
        have hc : (file.length + 1023) / 1024 - 1 = m := by omega
        have hl : file.length - 1024 * m = 1024 := by omega
        rw [hm] at hr
        simp [hr, hn, sentBuffers, hm, hc, hl, List.replicate_succ']
    · have hlt : PACKET_SIZE * (file.length / PACKET_SIZE) < file.length := by
        have := List.length_pos.mpr hr
        simp only [List.length_drop] at this
        omega
      simp only [PACKET_SIZE] at hlt hr ⊢
      have hn : file.length ≠ 0 := by omega
      have hc : (file.length + 1023) / 1024 - 1 = file.length / 1024 := by omega
      simp [hr, hn, sentBuffers, hc]
  refine ⟨by rw [communicate_ok_run env file hfile hok], ?_, hsizes, ?_⟩
  · have := congrArg List.length hsizes
    rw [List.length_map] at this
    rw [this]
    by_cases hn : file.length = 0
    · simp [hn]
    · simp [hn]
      omega
  · intro hn
    omega

theorem communicate_packet_sizes_witness :
    ((communicate (readyEnv (some (List.replicate 2500 7)))).outcome = .returned
      ∧ (sentBuffers (communicate (readyEnv (some (List.replicate 2500 7)))).trace).map
          List.length = [1024, 1024, 452])
    ∧ ((communicate (readyEnv (some (List.replicate 2048 7)))).outcome = .returned
      ∧ (sentBuffers (communicate (readyEnv (some (List.replicate 2048 7)))).trace).map
          List.length = [1024, 1024]) := by
  have h1 := communicate_packet_sizes (readyEnv (some (List.replicate 2500 7)))
    (List.replicate 2500 7) rfl (readyEnv_trace _).1 (readyEnv_trace _).2
  have h2 := communicate_packet_sizes (readyEnv (some (List.replicate 2048 7)))
    (List.replicate 2048 7) rfl (readyEnv_trace _).1 (readyEnv_trace _).2
  simp only [List.length_replicate] at h1 h2
  exact ⟨⟨h1.1, h1.2.2.1.trans (by decide)⟩, ⟨h2.1, h2.2.2.1.trans (by decide)⟩⟩

/-- C5: when the file can be opened and the first call that does not succeed is
met in iteration `k ≥ 1` of the loop of `communicate` (iterations `1 .. k-1`
found the socket writable and sent their packet, iteration `k` is reached, and
in it `select` returns -1 or 0, or `send` returns -1), the run ends with the
failure of the matching kind, the failing call is followed by `close(sockfd)`
and `exit(1)` and by nothing else, and the packets pushed before are exactly the
first `k-1` packets of the file, its first `1024 * (k-1)` bytes; `k` reads and
`k` waits were done in all. -/
theorem communicate_first_failure (env : Env) (file : List Byte) (k : Nat)
    (hfile : env.file = some file) (hk : 1 ≤ k)
    (hreach : PACKET_SIZE * (k - 1) < file.length)
    (hprev : ∀ j, j < k - 1 →
      0 < (env.select j ⟨10, 0⟩).1 ∧ env.send j (chunk file j) ≠ -1)
    (hfail : (env.select (k - 1) ⟨10, 0⟩).1 = -1 ∨ (env.select (k - 1) ⟨10, 0⟩).1 = 0
      ∨ (0 < (env.select (k - 1) ⟨10, 0⟩).1 ∧ env.send (k - 1) (chunk file (k - 1)) = -1)) :
    ((env.select (k - 1) ⟨10, 0⟩).1 = -1 →
        (communicate env).outcome = .failed .SendCheckError
        ∧ ∃ pre, (communicate env).trace = pre ++ [.select ⟨10, 0⟩ (-1), .close, .exit 1])
    ∧ ((env.select (k - 1) ⟨10, 0⟩).1 = 0 →
        (communicate env).outcome = .failed .SendTimeout
        ∧ ∃ pre, (communicate env).trace = pre ++ [.select ⟨10, 0⟩ 0, .close, .exit 1])
    ∧ (0 < (env.select (k - 1) ⟨10, 0⟩).1 ∧ env.send (k - 1) (chunk file (k - 1)) = -1 →
        (communicate env).outcome = .failed .SendError
        ∧ ∃ pre, (communicate env).trace =
            pre ++ [.send (chunk file (k - 1)) (-1), .close, .exit 1])
    ∧ pushedChunks (communicate env).trace = (List.range (k - 1)).map (chunk file)
    ∧ (pushedChunks (communicate env).trace).flatten = file.take (PACKET_SIZE * (k - 1))
    ∧ (readCounts (communicate env).trace).length = k
    ∧ (selectTimeouts (communicate env).trace).length = k := by
  obtain ⟨m, rfl⟩ : ∃ m, k = m + 1 := ⟨k - 1, by omega⟩
  simp only [Nat.add_sub_cancel] at hreach hprev hfail ⊢
  have hrun := communicate_after_prefix env file m hfile hreach hprev
  have hr : file.drop (PACKET_SIZE * m) ≠ [] := by
    intro h
    have := List.drop_eq_nil_iff.mp h
    omega
  have hchunk : (file.drop (PACKET_SIZE * m)).take PACKET_SIZE = chunk file m := rfl
  have hpush : pushedChunks (okTrace env m 0 file) = (List.range m).map (chunk file) :=
    pushedChunks_okTrace env m 0 file (fun j hj => by rw [Nat.zero_add]; exact (hprev j hj).2)
  have key : ∀ tail : List Event, pushedChunks tail = [] → (readCounts tail).length = 1 →
      (selectTimeouts tail).length = 1 →
      (communicate env).trace = [.fopen true] ++ okTrace env m 0 file ++ tail →
      pushedChunks (communicate env).trace = (List.range m).map (chunk file)
      ∧ (pushedChunks (communicate env).trace).flatten = file.take (PACKET_SIZE * m)
      ∧ (readCounts (communicate env).trace).length = m + 1
      ∧ (selectTimeouts (communicate env).trace).length = m + 1 := by
    intro tail h1 h2 h3 htr
    have hp : pushedChunks (communicate env).trace = (List.range m).map (chunk file) := by
      rw [htr, pushedChunks_append, pushedChunks_append, hpush, h1]
      simp [pushedChunks]
    refine ⟨hp, ?_, ?_, ?_⟩
    · rw [hp, flatten_map_chunk_range]
    · rw [htr, readCounts_append, readCounts_append, readCounts_okTrace, List.length_append,
        List.length_append, h2, List.length_replicate]
      simp [readCounts]
    · rw [htr, selectTimeouts_append, selectTimeouts_append, selectTimeouts_okTrace,
        List.length_append, List.length_append, h3, List.length_replicate]
      simp [selectTimeouts]
  rcases hfail with hsel | hsel | ⟨hsel, hsend⟩
  · rw [loop_select_error env m _ ⟨10, 0⟩ hr hsel, hchunk] at hrun
    have htr : (communicate env).trace = [.fopen true] ++ okTrace env m 0 file ++
        [.read (chunk file m).length, .select ⟨10, 0⟩ (-1), .close, .exit 1] := by
      rw [hrun]; simp [Run.after, Run.andThen]
    have hout : (communicate env).outcome = .failed .SendCheckError := by
      rw [hrun]; rfl
    exact ⟨fun _ => ⟨hout, ⟨[.fopen true] ++ okTrace env m 0 file ++
      [.read (chunk file m).length], by rw [htr]; simp⟩⟩, fun h => by omega, fun h => by omega,
      key _ (by rfl) (by rfl) (by rfl) htr⟩
  · rw [loop_select_timeout env m _ ⟨10, 0⟩ hr hsel, hchunk] at hrun
    have htr : (communicate env).trace = [.fopen true] ++ okTrace env m 0 file ++
        [.read (chunk file m).length, .select ⟨10, 0⟩ 0, .close, .exit 1] := by
      rw [hrun]; simp [Run.after, Run.andThen]
    have hout : (communicate env).outcome = .failed .SendTimeout := by
      rw [hrun]; rfl
    exact ⟨fun h => by omega, fun _ => ⟨hout, ⟨[.fopen true] ++ okTrace env m 0 file ++
      [.read (chunk file m).length], by rw [htr]; simp⟩⟩, fun h => by omega,
      key _ (by rfl) (by rfl) (by rfl) htr⟩
  · rw [hchunk.symm] at hsend
    rw [loop_send_error env m _ ⟨10, 0⟩ hr (by omega) (by omega) hsend, hchunk] at hrun
    have htr : (communicate env).trace = [.fopen true] ++ okTrace env m 0 file ++
        [.read (chunk file m).length, .select ⟨10, 0⟩ (env.select m ⟨10, 0⟩).1,
          .send (chunk file m) (-1), .close, .exit 1] := by
      rw [hrun]; simp [Run.after, Run.andThen]
    have hout : (communicate env).outcome = .failed .SendError := by
      rw [hrun]; rfl
    exact ⟨fun h => by omega, fun h => by omega, fun _ => ⟨hout,
      ⟨[.fopen true] ++ okTrace env m 0 file ++ [.read (chunk file m).length,
        .select ⟨10, 0⟩ (env.select m ⟨10, 0⟩).1], by rw [htr]; simp⟩⟩,
      key _ (by rfl) (by rfl) (by rfl) htr⟩

theorem communicate_first_failure_witness :
    ((communicate (peerClosesEnv (some (List.replicate 2500 7)))).outcome = .failed .SendError
      ∧ pushedChunks (communicate (peerClosesEnv (some (List.replicate 2500 7)))).trace
          = (List.range 1).map (chunk (List.replicate 2500 7)))
    ∧ ((communicate (peerStallsEnv (some (List.replicate 2500 7)) 2)).outcome
          = .failed .SendTimeout
      ∧ pushedChunks (communicate (peerStallsEnv (some (List.replicate 2500 7)) 2)).trace
          = (List.range 2).map (chunk (List.replicate 2500 7))) := by
  have hlen : (List.replicate 2500 (7 : Byte)).length = 2500 := List.length_replicate _ _
  have h1 := communicate_first_failure (peerClosesEnv (some (List.replicate 2500 7)))
    (List.replicate 2500 7) 2 rfl (by decide) (by rw [hlen]; decide)
    (fun j hj => by
      have hj0 : j = 0 := by omega
      subst hj0
      exact ⟨by show (0 : Int) < 1; decide, by show ((_ : Nat) : Int) ≠ -1; omega⟩)
    (Or.inr (Or.inr ⟨by show (0 : Int) < 1; decide, rfl⟩))
  have h2 := communicate_first_failure (peerStallsEnv (some (List.replicate 2500 7)) 2)
    (List.replicate 2500 7) 3 rfl (by decide) (by rw [hlen]; decide)
    (fun j hj => by
      have hj2 : j < 2 := hj
      refine ⟨?_, by show ((_ : Nat) : Int) ≠ -1; omega⟩
      show (0 : Int) < (if j < 2 then ((1 : Int), _) else (0, _)).1
      rw [if_pos hj2]
      decide)
    (Or.inr (Or.inl rfl))
  exact ⟨⟨(h1.2.2.1 ⟨by show (0 : Int) < 1; decide, rfl⟩).1, h1.2.2.2.1⟩,
    ⟨(h2.2.1 rfl).1, h2.2.2.2.1⟩⟩

/-- C7: in `communicate` every `select` of the loop is passed a timeout of
exactly 10 s 0 us, whatever the earlier calls of `select` left in `timeout`;
so a peer whose socket becomes writable within 10 s at every packet never makes
the run end with `SendTimeout`, however long the whole transfer takes. -/
theorem communicate_timeout_per_packet (env : Env) (lat : Nat → Nat)
    (hlat : ∀ j, lat j ≤ 10000000) :
    (∀ t r, Event.select t r ∈ (communicate env).trace → t = ⟨10, 0⟩)
    ∧ (communicate { env with select := fun j => selectReadyAfter (lat j) }).outcome
        ≠ .failed .SendTimeout := by
  constructor
  · intro t r hm
    exact communicate_trace_events env (fun e => ∀ t r, e = Event.select t r → t = ⟨10, 0⟩)
      (fun b t r h => by cases h) (fun t r h => by cases h) (fun n t r h => by cases h)
      (fun i t r h => by cases h; rfl) (fun i b t r h => by cases h)
      (fun t r h => by cases h) (fun t r h => by cases h) _ hm t r rfl
  · have hsel : ∀ j, (({ env with select := fun j => selectReadyAfter (lat j) } : Env).select j
        ⟨10, 0⟩).1 ≠ 0 := by
      intro j
      have := hlat j
      have hle : ((lat j : Nat) : Int) ≤ (⟨10, 0⟩ : Timeval).toUsec := by
        simp only [Timeval.toUsec]
        omega
      simp [selectReadyAfter, hle]
    have hinv := loop_no_timeout { env with select := fun j => selectReadyAfter (lat j) } hsel _ 0
      (FStream.openFile env.file) rfl
    unfold communicate
    generalize communicateLoop { env with select := fun j => selectReadyAfter (lat j) } 0
      (FStream.openFile env.file) ⟨10, 0⟩ = r at hinv
    obtain ⟨tr, out⟩ := r
    cases out with
    | returned => simp [Run.after, Run.andThen]
    | failed kind =>
      simp only [Run.after, Run.andThen]
      exact hinv

theorem communicate_timeout_per_packet_witness :
    (∀ t r, Event.select t r ∈ (communicate (slowPeerEnv (some (List.replicate 2500 7)))).trace
        → t = ⟨10, 0⟩)
    ∧ (communicate (slowPeerEnv (some (List.replicate 2500 7)))).outcome
        ≠ .failed .SendTimeout :=
  communicate_timeout_per_packet (slowPeerEnv (some (List.replicate 2500 7)))
    (fun _ => 9000000) (fun _ => by show 9000000 ≤ 10000000; decide)

/-- C4: `serverConnect` on every result of `connect` (0 or -1), every `errno`
and every result of `select` (-1, 0 or positive).  It returns exactly when
`connect` returned 0, or returned -1 with `EINPROGRESS` and `select` returned a
positive value; it fails with `ConnectTimeout` exactly when `connect` returned
-1 with `EINPROGRESS` and `select` returned 0, with `ConnectCheckError` exactly
when `select` returned -1 there, and with `ConnectError` exactly when `connect`
returned -1 with another `errno`.  `select` is called once, with 15 s 0 us, in
the `EINPROGRESS` case and not at all otherwise. -/
theorem serverConnect_classification (EINPROGRESS : Int) (env : Env)
    (hconn : env.connectResult = 0 ∨ env.connectResult = -1)
    (hsel : -1 ≤ (env.connectSelect ⟨15, 0⟩).1) :
    ((serverConnect EINPROGRESS env).outcome = .returned ↔
        env.connectResult = 0 ∨
          (env.connectResult = -1 ∧ env.connectErrno = EINPROGRESS
            ∧ 0 < (env.connectSelect ⟨15, 0⟩).1))
    ∧ ((serverConnect EINPROGRESS env).outcome = .failed .ConnectTimeout ↔
        env.connectResult = -1 ∧ env.connectErrno = EINPROGRESS
          ∧ (env.connectSelect ⟨15, 0⟩).1 = 0)
    ∧ ((serverConnect EINPROGRESS env).outcome = .failed .ConnectCheckError ↔
        env.connectResult = -1 ∧ env.connectErrno = EINPROGRESS
          ∧ (env.connectSelect ⟨15, 0⟩).1 = -1)
    ∧ ((serverConnect EINPROGRESS env).outcome = .failed .ConnectError ↔
        env.connectResult = -1 ∧ env.connectErrno ≠ EINPROGRESS)
    ∧ selectTimeouts (serverConnect EINPROGRESS env).trace =
        (if env.connectResult = -1 ∧ env.connectErrno = EINPROGRESS then [⟨15, 0⟩] else []) := by
  unfold serverConnect
  rcases hconn with hc | hc
  · have hne : env.connectResult ≠ -1 := by omega
    simp [hne, hc, selectTimeouts]
  · by_cases he : env.connectErrno = EINPROGRESS
    · by_cases h1 : (env.connectSelect ⟨15, 0⟩).1 = -1
      · simp [hc, he, h1, selectTimeouts]
      · by_cases h0 : (env.connectSelect ⟨15, 0⟩).1 = 0
        · simp [hc, he, h0, selectTimeouts]
        · have hpos : 0 < (env.connectSelect ⟨15, 0⟩).1 := by omega
          simp [hc, he, h1, h0, hpos, selectTimeouts]
    · simp [hc, he, selectTimeouts]

theorem serverConnect_classification_witness :
    (serverConnect 115 (unreachableEnv none)).outcome = .failed .ConnectTimeout
    ∧ selectTimeouts (serverConnect 115 (unreachableEnv none)).trace = [⟨15, 0⟩] :=
  have h := serverConnect_classification 115 (unreachableEnv none) (Or.inr rfl) (by decide)
  ⟨h.2.1.mpr ⟨rfl, rfl, rfl⟩, h.2.2.2.2⟩

/-- C8: on an empty file `communicate` does one read, which extracts nothing,
no `select` and no `send`, closes the stream and returns normally. -/
theorem communicate_empty_file (env : Env) :
    communicate { env with file := some [] } = ⟨[.fopen true, .read 0, .fclose], .returned⟩
    ∧ readCounts (communicate { env with file := some [] }).trace = [0]
    ∧ selectTimeouts (communicate { env with file := some [] }).trace = []
    ∧ sentBuffers (communicate { env with file := some [] }).trace = [] := by
  have h : communicate { env with file := some [] }
      = ⟨[.fopen true, .read 0, .fclose], .returned⟩ := by
    unfold communicate
    have hopen : FStream.openFile (some []) = ⟨[], false, false⟩ := rfl
    simp only [hopen, loop_exhausted]
    rfl
  rw [h]
  exact ⟨rfl, rfl, rfl, rfl⟩

/-- C10: when the file cannot be opened `communicate` reports nothing: its one
read extracts nothing, there is no `select` and no `send`, and it returns
normally; `main` then goes on as after the transfer of an empty file, closing
the socket and returning 0. -/
theorem communicate_unopened_file (EINPROGRESS : Int) (env : Env) :
    communicate { env with file := none } = ⟨[.fopen false, .read 0, .fclose], .returned⟩
    ∧ main EINPROGRESS { env with file := none } =
        (connectPhase EINPROGRESS env).andThen
          ⟨[.fopen false, .read 0, .fclose, .close], .returned⟩
    ∧ main EINPROGRESS { env with file := some [] } =
        (connectPhase EINPROGRESS env).andThen
          ⟨[.fopen true, .read 0, .fclose, .close], .returned⟩ := by
  have hnone : communicate { env with file := none }
      = ⟨[.fopen false, .read 0, .fclose], .returned⟩ := by
    unfold communicate
    rw [loop_not_good _ 0 _ _ (by rfl)]
    rfl
  have hempty : communicate { env with file := some [] }
      = ⟨[.fopen true, .read 0, .fclose], .returned⟩ := by
    unfold communicate
    have hopen : FStream.openFile (some []) = ⟨[], false, false⟩ := rfl
    simp only [hopen, loop_exhausted]
    rfl
  refine ⟨hnone, ?_, ?_⟩
  · unfold main
    rw [hnone]
    rfl
  · unfold main
    rw [hempty]
    rfl

/-- C2, at a file of three bytes of which the transport takes two: the only
`send` is offered the three bytes and returns 2, `communicate` takes that for
success and returns normally, and the peer has observed two bytes of three.
(When the transport takes all three, the peer observes the file.) -/
theorem communicate_partial_send_loses_bytes :
    communicate (partialSendEnv (some [1, 2, 3])) =
        ⟨[.fopen true, .read 3, .select ⟨10, 0⟩ 1, .send [1, 2, 3] 2, .fclose], .returned⟩
    ∧ acceptedBytes (communicate (partialSendEnv (some [1, 2, 3]))).trace = [1, 2]
    ∧ acceptedBytes (communicate (partialSendEnv (some [1, 2, 3]))).trace ≠ [1, 2, 3]
    ∧ acceptedBytes (communicate (readyEnv (some [1, 2, 3]))).trace = [1, 2, 3] := by
  have hfull : communicate (readyEnv (some [1, 2, 3])) =
      ⟨[.fopen true, .read 3, .select ⟨10, 0⟩ 1, .send [1, 2, 3] 3, .fclose], .returned⟩ := by
    unfold communicate
    have hopen : FStream.openFile (readyEnv (some [1, 2, 3])).file
        = ⟨[1, 2, 3], false, false⟩ := rfl
    rw [hopen, loop_step_last _ 0 [1, 2, 3] ⟨10, 0⟩ (by decide) (by decide) (by decide)
      (by decide) (by decide)]
    rfl
  have h : communicate (partialSendEnv (some [1, 2, 3])) =
      ⟨[.fopen true, .read 3, .select ⟨10, 0⟩ 1, .send [1, 2, 3] 2, .fclose], .returned⟩ := by
    unfold communicate
    have hopen : FStream.openFile (partialSendEnv (some [1, 2, 3])).file
        = ⟨[1, 2, 3], false, false⟩ := rfl
    rw [hopen, loop_step_last _ 0 [1, 2, 3] ⟨10, 0⟩ (by decide) (by decide) (by decide)
      (by decide) (by decide)]
    rfl
  rw [h, hfull]
  exact ⟨rfl, by decide, by decide, by decide⟩

/-- C6, at two runs.  When `connect` is refused, `main` ends in `serverConnect`
with `exit(1)` and `close(sockfd)` was never called.  When the first `send`
fails, `main` ends in `communicate` through `exitOnError`: the socket is closed
but `fin.close()` was never called on the stream that was opened. -/
theorem main_failure_leaves_handles_open :
    (main 115 (refusedEnv (some [1, 2, 3])) =
        ⟨[.fcntl 2, .fcntl 0, .connect (-1) 111, .exit 1], .failed .ConnectError⟩
      ∧ Event.close ∉ (main 115 (refusedEnv (some [1, 2, 3]))).trace)
    ∧ (main 115 (brokenPipeEnv (some [1, 2, 3])) =
        ⟨[.fcntl 2, .fcntl 0, .connect 0 0, .getsockname 0, .fopen true, .read 3,
            .select ⟨10, 0⟩ 1, .send [1, 2, 3] (-1), .close, .exit 1], .failed .SendError⟩
      ∧ Event.fclose ∉ (main 115 (brokenPipeEnv (some [1, 2, 3]))).trace) := by
  have h1 : main 115 (refusedEnv (some [1, 2, 3])) =
      ⟨[.fcntl 2, .fcntl 0, .connect (-1) 111, .exit 1], .failed .ConnectError⟩ := by
    unfold main
    have hc : connectPhase 115 (refusedEnv (some [1, 2, 3])) =
        ⟨[.fcntl 2, .fcntl 0, .connect (-1) 111, .exit 1], .failed .ConnectError⟩ := by
      decide
    rw [hc]
    rfl
  have h2 : main 115 (brokenPipeEnv (some [1, 2, 3])) =
      ⟨[.fcntl 2, .fcntl 0, .connect 0 0, .getsockname 0, .fopen true, .read 3,
          .select ⟨10, 0⟩ 1, .send [1, 2, 3] (-1), .close, .exit 1], .failed .SendError⟩ := by
    unfold main communicate
    have hc : connectPhase 115 (brokenPipeEnv (some [1, 2, 3])) =
        ⟨[.fcntl 2, .fcntl 0, .connect 0 0, .getsockname 0], .returned⟩ := by
      decide
    have hopen : FStream.openFile (brokenPipeEnv (some [1, 2, 3])).file
        = ⟨[1, 2, 3], false, false⟩ := rfl
    rw [hc, hopen, loop_send_error _ 0 [1, 2, 3] ⟨10, 0⟩ (by decide) (by decide) (by decide)
      (by decide)]
    rfl
  rw [h1, h2]
  exact ⟨⟨rfl, by decide⟩, ⟨rfl, by decide⟩⟩

/-- C9, at the port argument `8080abc` (with the `LONG_MIN` and `LONG_MAX` of a
64-bit `long`): `parseArguments` accepts it and stores the port 8080, and
`parsePort` rejects it.  (Both accept `8080`.) -/
theorem parseArguments_accepts_trailing_garbage :
    parseArguments (-9223372036854775808) 9223372036854775807 (fun h => some h)
        ["./client", "127.0.0.1", "8080abc", "file.txt"]
      = .ok { port := 8080, host := "127.0.0.1", filename := "file.txt" }
    ∧ parsePort (-9223372036854775808) 9223372036854775807 "8080abc".toList = none
    ∧ parseArguments (-9223372036854775808) 9223372036854775807 (fun h => some h)
        ["./client", "127.0.0.1", "8080", "file.txt"]
      = .ok { port := 8080, host := "127.0.0.1", filename := "file.txt" }
    ∧ parsePort (-9223372036854775808) 9223372036854775807 "8080".toList = some 8080 := by
  refine ⟨rfl, ?_, rfl, ?_⟩
  · decide
  · decide

end Client
